import Mathlib

/-!
Verification development for the receipt-analytics-engine extraction
pipeline (`ReceiptService` in `receipt.service.ts`).

The dynamic JavaScript values flowing through the service are embedded as
an inductive `Json` type; `JSON.parse` is modelled by an executable
recursive-descent parser `jsonParse`; the response sanitizer
(`text.replace(/三backtick json\n?/g,'').replace(/三backtick\n?/g,'').trim()`)
is modelled by `cleanResponse`; `validateExtractedData`, the orchestrator
`extractReceiptDetails` and the in-memory repository operations are
translated line by line from the source.  Nondeterministic externals of a
single invocation (the generated uuid, the file-system write outcome, the
AI gateway reply) are passed in explicitly through `ExtractEnv`.
-/

/-- A parsed JavaScript/JSON value.  `null` also stands for the JavaScript
`undefined` that property access on a missing key yields: every check the
service performs (`typeof ... === 'string' / 'number'`, `Array.isArray`,
truthiness) treats the two identically. Object fields keep their textual
order; a repeated key is resolved to its last occurrence by `getField`,
as `JSON.parse` does. -/
inductive Json where
  | null : Json
  | bool (b : Bool) : Json
  | num (q : Rat) : Json
  | str (s : String) : Json
  | arr (elems : List Json) : Json
  | obj (fields : List (String × Json)) : Json

/-- Property access `o[k]` as `JSON.parse` output sees it: on an object the
last binding of `k` wins (ECMA duplicate-key semantics), on anything else
(and on a missing key) the result is the `undefined`-like `Json.null`. -/
def getField (j : Json) (k : String) : Json :=
  match j with
  | .obj fields => fields.foldl (fun acc p => if p.1 = k then p.2 else acc) Json.null
  | _ => Json.null

/-- JavaScript truthiness of a parsed value (`data && ...`). -/
def truthy : Json → Bool
  | .null => false
  | .bool b => b
  | .num q => !(q == 0)
  | .str s => !(s == "")
  | .arr _ => true
  | .obj _ => true

/-- `typeof v === 'string'`. -/
def jsIsString : Json → Bool
  | .str _ => true
  | _ => false

/-- `typeof v === 'number'`. -/
def jsIsNumber : Json → Bool
  | .num _ => true
  | _ => false

/-- `v` is a plain object. -/
def jsIsObj : Json → Bool
  | .obj _ => true
  | _ => false

/-- `v.length` of a string value (only consulted after a string check). -/
def jsStrLength : Json → Nat
  | .str s => s.length
  | _ => 0

/-- The per-element predicate of
`data.receipt_items.every(item => typeof item.item_name === 'string' &&
typeof item.item_cost === 'number')`. -/
def itemOk (it : Json) : Bool :=
  jsIsString (getField it "item_name") && jsIsNumber (getField it "item_cost")

/-- `Array.prototype.every` over the items, with JavaScript's exception
behaviour made explicit: property access on a `null` element throws a
`TypeError`, modelled as `none`; otherwise the boolean short-circuit scan
is returned as `some`. -/
def itemsCheck : List Json → Option Bool
  | [] => some true
  | Json.null :: _ => none
  | it :: rest => if itemOk it then itemsCheck rest else some false

/-- `validateExtractedData` translated clause by clause, in source order:
`data && typeof data.date === 'string' && typeof data.currency === 'string'
&& typeof data.vendor_name === 'string' && Array.isArray(data.receipt_items)
&& data.receipt_items.every(...) && typeof data.tax === 'number' &&
typeof data.total === 'number' && data.currency.length === 3`.
`none` models the call throwing (only possible inside `every`, on a `null`
array element); `some b` models a normal return with truthiness `b`. -/
def validateExtractedData (data : Json) : Option Bool :=
  if !truthy data then some false
  else if !jsIsString (getField data "date") then some false
  else if !jsIsString (getField data "currency") then some false
  else if !jsIsString (getField data "vendor_name") then some false
  else
    match getField data "receipt_items" with
    | .arr items =>
      match itemsCheck items with
      | none => none
      | some false => some false
      | some true =>
        if !jsIsNumber (getField data "tax") then some false
        else if !jsIsNumber (getField data "total") then some false
        else some (jsStrLength (getField data "currency") == 3)
    | _ => some false

/-! ## Response sanitizer

`const cleanedText = text.replace(/三backtick json\n?/g, '')
                         .replace(/三backtick\n?/g, '').trim();`
Each `replace(..., '')` with a global regex is a left-to-right scan that
deletes every occurrence of the pattern (the pattern being three backticks,
optionally `json`, optionally a following newline) and resumes scanning
right after the deleted match.  The scans are written with an explicit
fuel argument (structural recursion, so the kernel can evaluate them);
fuel `l.length` is always sufficient because every step consumes at least
one character. -/

/-- The seven-character pattern of the first global replace. -/
def fenceJson : List Char := "```json".data

/-- The three-character pattern of the second global replace. -/
def fenceBare : List Char := "```".data

/-- The backtick character (first character of both fence patterns). -/
def backtick : Char := Char.ofNat 96

/-- Consume the optional newline of the `\n?` at the end of both regexes. -/
def dropNl : List Char → List Char
  | c :: rest => if c = '\n' then rest else c :: rest
  | [] => []

/-- Fuelled scan deleting every occurrence of \x60\x60\x60json
optionally followed by a newline. -/
def stripJsonFenceF : Nat → List Char → List Char
  | 0, l => l
  | _ + 1, [] => []
  | fuel + 1, c :: cs =>
    if (c :: cs).take 7 = fenceJson then
      stripJsonFenceF fuel (dropNl ((c :: cs).drop 7))
    else
      c :: stripJsonFenceF fuel cs

/-- First replace pass: delete every occurrence of the json fence. -/
def stripJsonFence (l : List Char) : List Char := stripJsonFenceF l.length l

/-- Fuelled scan deleting every occurrence of \x60\x60\x60
optionally followed by a newline. -/
def stripBareFenceF : Nat → List Char → List Char
  | 0, l => l
  | _ + 1, [] => []
  | fuel + 1, c :: cs =>
    if (c :: cs).take 3 = fenceBare then
      stripBareFenceF fuel (dropNl ((c :: cs).drop 3))
    else
      c :: stripBareFenceF fuel cs

/-- Second replace pass: delete every occurrence of the bare fence. -/
def stripBareFence (l : List Char) : List Char := stripBareFenceF l.length l

/-- The whitespace class of JavaScript `String.prototype.trim`
(restricted to the ASCII whitespace actually reachable here). -/
def isTrimWs (c : Char) : Bool :=
  c == ' ' || c == '\t' || c == '\n' || c == '\r' ||
  c == Char.ofNat 11 || c == Char.ofNat 12

/-- `String.prototype.trim`. -/
def jsTrim (l : List Char) : List Char :=
  (((l.dropWhile isTrimWs).reverse).dropWhile isTrimWs).reverse

/-- The whole sanitizing expression applied to the gateway's raw text. -/
def cleanResponse (s : String) : String :=
  String.mk (jsTrim (stripBareFence (stripJsonFence s.data)))

/-! ## `JSON.parse`

A strict recursive-descent parser modelling the platform's `JSON.parse`:
RFC 8259 grammar (no trailing garbage, no leading zeros, no trailing
commas, strings with the standard escapes, numbers read into `Rat`).
`none` models a thrown `SyntaxError`.  The recursion is fuelled; the
top-level entry hands it more fuel than any input can consume. -/

/-- JSON insignificant whitespace. -/
def isJsonWs (c : Char) : Bool :=
  c == ' ' || c == '\t' || c == '\n' || c == '\r'

/-- Skip insignificant whitespace. -/
def skipWs (l : List Char) : List Char := l.dropWhile isJsonWs

/-- Decimal digit test. -/
def isDigitCh (c : Char) : Bool := '0' ≤ c && c ≤ '9'

/-- Value of a decimal digit. -/
def digitVal (c : Char) : Nat := c.toNat - '0'.toNat

/-- Read a digit run as a natural number. -/
def digitsToNat (ds : List Char) : Nat :=
  ds.foldl (fun n c => 10 * n + digitVal c) 0

/-- Value of a hexadecimal digit, if any. -/
def hexVal (c : Char) : Option Nat :=
  if '0' ≤ c ∧ c ≤ '9' then some (c.toNat - '0'.toNat)
  else if 'a' ≤ c ∧ c ≤ 'f' then some (c.toNat - 'a'.toNat + 10)
  else if 'A' ≤ c ∧ c ≤ 'F' then some (c.toNat - 'A'.toNat + 10)
  else none

/-- The single-character string escapes. -/
def escChar (e : Char) : Option Char :=
  if e = '"' then some '"'
  else if e = '\\' then some '\\'
  else if e = '/' then some '/'
  else if e = 'b' then some (Char.ofNat 8)
  else if e = 'f' then some (Char.ofNat 12)
  else if e = 'n' then some '\n'
  else if e = 'r' then some '\r'
  else if e = 't' then some '\t'
  else none

/-- Parse the body of a string literal after its opening quote; returns
the decoded characters and the input remaining after the closing quote. -/
def parseStringChars : List Char → Option (List Char × List Char)
  | [] => none
  | '"' :: rest => some ([], rest)
  | '\\' :: 'u' :: h1 :: h2 :: h3 :: h4 :: rest =>
    match hexVal h1, hexVal h2, hexVal h3, hexVal h4 with
    | some a, some b, some c, some d =>
      match parseStringChars rest with
      | some (s, r) => some (Char.ofNat (((a * 16 + b) * 16 + c) * 16 + d) :: s, r)
      | none => none
    | _, _, _, _ => none
  | '\\' :: e :: rest =>
    match escChar e with
    | some c =>
      match parseStringChars rest with
      | some (s, r) => some (c :: s, r)
      | none => none
    | none => none
  | c :: rest =>
    if c.toNat < 32 then none
    else
      match parseStringChars rest with
      | some (s, r) => some (c :: s, r)
      | none => none

/-- Parse a JSON number at the head of the input. -/
def parseNumber (cs : List Char) : Option (Json × List Char) :=
  let signAndRest : Bool × List Char :=
    match cs with
    | '-' :: r => (true, r)
    | _ => (false, cs)
  match List.span isDigitCh signAndRest.2 with
  | (intDigits, rest1) =>
    if intDigits = [] then none
    else if 2 ≤ intDigits.length ∧ intDigits.head? = some '0' then none
    else
      let fracStep : Option (List Char × List Char) :=
        match rest1 with
        | '.' :: r =>
          match List.span isDigitCh r with
          | ([], _) => none
          | (fs, r') => some (fs, r')
        | _ => some ([], rest1)
      match fracStep with
      | none => none
      | some (fracDigits, rest2) =>
        let expStep : Option (Int × List Char) :=
          match rest2 with
          | 'e' :: r | 'E' :: r =>
            let signR : Int × List Char :=
              match r with
              | '+' :: rr => (1, rr)
              | '-' :: rr => (-1, rr)
              | _ => (1, r)
            match List.span isDigitCh signR.2 with
            | ([], _) => none
            | (eds, r2) => some (signR.1 * (digitsToNat eds : Int), r2)
          | _ => some (0, rest2)
        match expStep with
        | none => none
        | some (ex, rest3) =>
          let mant : Int := (digitsToNat (intDigits ++ fracDigits) : Int)
          let signedMant : Int := if signAndRest.1 then -mant else mant
          let e : Int := ex - (fracDigits.length : Int)
          let value : Rat :=
            if 0 ≤ e then mkRat (signedMant * (10 ^ e.toNat : Int)) 1
            else mkRat signedMant (10 ^ (-e).toNat)
          some (.num value, rest3)

mutual

/-- Parse one JSON value (after optional leading whitespace). -/
def parseValue : Nat → List Char → Option (Json × List Char)
  | 0, _ => none
  | fuel + 1, cs =>
    match skipWs cs with
    | '{' :: rest => parseObjBody fuel rest
    | '[' :: rest => parseArrBody fuel rest
    | '"' :: rest =>
      match parseStringChars rest with
      | some (s, r) => some (.str (String.mk s), r)
      | none => none
    | 'n' :: 'u' :: 'l' :: 'l' :: rest => some (.null, rest)
    | 't' :: 'r' :: 'u' :: 'e' :: rest => some (.bool true, rest)
    | 'f' :: 'a' :: 'l' :: 's' :: 'e' :: rest => some (.bool false, rest)
    | other => parseNumber other

/-- Parse the inside of an object after the opening brace. -/
def parseObjBody : Nat → List Char → Option (Json × List Char)
  | 0, _ => none
  | fuel + 1, cs =>
    match skipWs cs with
    | '}' :: rest => some (.obj [], rest)
    | other => parseMembers fuel other []

/-- Parse the comma-separated members of a nonempty object. -/
def parseMembers : Nat → List Char → List (String × Json) →
    Option (Json × List Char)
  | 0, _, _ => none
  | fuel + 1, cs, acc =>
    match skipWs cs with
    | '"' :: rest =>
      match parseStringChars rest with
      | none => none
      | some (key, r1) =>
        match skipWs r1 with
        | ':' :: r2 =>
          match parseValue fuel r2 with
          | none => none
          | some (v, r3) =>
            match skipWs r3 with
            | ',' :: r4 => parseMembers fuel r4 (acc ++ [(String.mk key, v)])
            | '}' :: r4 => some (.obj (acc ++ [(String.mk key, v)]), r4)
            | _ => none
        | _ => none
    | _ => none

/-- Parse the inside of an array after the opening bracket. -/
def parseArrBody : Nat → List Char → Option (Json × List Char)
  | 0, _ => none
  | fuel + 1, cs =>
    match skipWs cs with
    | ']' :: rest => some (.arr [], rest)
    | other => parseElems fuel other []

/-- Parse the comma-separated elements of a nonempty array. -/
def parseElems : Nat → List Char → List Json → Option (Json × List Char)
  | 0, _, _ => none
  | fuel + 1, cs, acc =>
    match parseValue fuel cs with
    | none => none
    | some (v, r1) =>
      match skipWs r1 with
      | ',' :: r2 => parseElems fuel r2 (acc ++ [v])
      | ']' :: r2 => some (.arr (acc ++ [v]), r2)
      | _ => none

end

/-- `JSON.parse`: a full parse of the given text, `none` on a syntax
error (including trailing garbage). -/
def jsonParse (s : String) : Option Json :=
  match parseValue (3 * s.data.length + 3) s.data with
  | some (v, rest) =>
    match skipWs rest with
    | [] => some v
    | _ => none
  | none => none

/-- The sanitize-then-parse stage of the orchestrator:
`JSON.parse(cleanedText)`. -/
def parseStage (text : String) : Option Json := jsonParse (cleanResponse text)

/-! ## Service, repository and orchestrator -/

/-- The parts of the incoming `Express.Multer.File` the service reads.
The byte buffer never influences control flow in the model (its content
only travels to disk and to the gateway), so it is omitted. -/
structure UploadFile where
  mimetype : String
  originalname : String

/-- The per-invocation external nondeterminism, passed in explicitly:
the identifier produced by `uuidv4()`, whether `fs.writeFile` resolves,
and the gateway outcome (`some text` when `generateContent` and
`response.text()` succeed, `none` when the call throws). -/
structure ExtractEnv where
  receiptId : String
  writeOk : Bool
  aiReply : Option String

/-- The `ReceiptResponse` record assembled by the service.  The six fields
copied from the AI output hold the parsed JavaScript values verbatim. -/
structure ReceiptResponse where
  id : String
  date : Json
  currency : Json
  vendor_name : Json
  receipt_items : Json
  tax : Json
  total : Json
  image_url : String

/-- The two NestJS exception classes the service throws. -/
inductive HttpError where
  | badRequest (message : String)
  | internalServer (message : String)

/-- The in-memory `Map<string, ReceiptResponse>` as an insertion-ordered
association list. -/
abbrev Repo := List (String × ReceiptResponse)

/-- `Map.prototype.set`: overwrite in place if the key exists, else
append. -/
def mapSet : Repo → String → ReceiptResponse → Repo
  | [], k, v => [(k, v)]
  | (k', v') :: rest, k, v =>
    if k' = k then (k, v) :: rest else (k', v') :: mapSet rest k v

/-- `getReceiptById(id)`: `this.receiptsData.get(id)`, `none` for
`undefined`. -/
def getReceiptById (repo : Repo) (id : String) : Option ReceiptResponse :=
  (repo.find? (fun p => p.1 == id)).map Prod.snd

/-- `getAllReceipts()`: `Array.from(this.receiptsData.values())`. -/
def getAllReceipts (repo : Repo) : List ReceiptResponse :=
  repo.map Prod.snd

/-- `const allowedTypes = ['image/jpeg', 'image/jpg', 'image/png',
'image/webp'];` -/
def allowedTypes : List String :=
  ["image/jpeg", "image/jpg", "image/png", "image/webp"]

/-- The message of the unsupported-media-type rejection. -/
def unsupportedTypeMsg : String :=
  "Only .jpg, .jpeg, .png, and .webp files are allowed"

/-- The three server-fault messages. -/
def formatErrMsg : String := "AI model returned invalid response format"

/-- Message for data that parsed but failed schema validation. -/
def contentErrMsg : String := "AI model returned incomplete or invalid data"

/-- The generic catch-all message. -/
def genericErrMsg : String := "Failed to process receipt image"

/-- The response-object literal the service builds from the validated
data: exactly the eight declared fields, the six AI fields copied
verbatim, `image_url` being `/uploads/` + the stored filename
`<receiptId>_<originalname>`. -/
def buildReceipt (env : ExtractEnv) (file : UploadFile) (data : Json) :
    ReceiptResponse :=
  { id := env.receiptId
    date := getField data "date"
    currency := getField data "currency"
    vendor_name := getField data "vendor_name"
    receipt_items := getField data "receipt_items"
    tax := getField data "tax"
    total := getField data "total"
    image_url := "/uploads/" ++ (env.receiptId ++ "_" ++ file.originalname) }

/-- What one invocation of `extractReceiptDetails` produces: the value
returned or the exception thrown, the repository map afterwards, and
whether the image write was attempted and the gateway called (for the
side-effect-ordering claims). -/
structure ExtractOutcome where
  result : Except HttpError ReceiptResponse
  repo : Repo
  fileWritten : Bool
  gatewayCalled : Bool

/-- `extractReceiptDetails` translated control-path by control-path:
mimetype allow-list check (outside the try block), file write, gateway
call, sanitize-and-parse with its dedicated catch, schema validation
(whose own `TypeError`, possible on a `null` receipt item, falls through
to the outer catch), response assembly and `Map.set`.  The outer catch
rethrows the two `HttpException`s and wraps anything else into the
generic `InternalServerErrorException`. -/
def extractReceiptDetails (env : ExtractEnv) (file : UploadFile)
    (repo : Repo) : ExtractOutcome :=
  if !(allowedTypes.contains file.mimetype) then
    { result := .error (.badRequest unsupportedTypeMsg)
      repo := repo, fileWritten := false, gatewayCalled := false }
  else if !env.writeOk then
    { result := .error (.internalServer genericErrMsg)
      repo := repo, fileWritten := true, gatewayCalled := false }
  else
    match env.aiReply with
    | none =>
      { result := .error (.internalServer genericErrMsg)
        repo := repo, fileWritten := true, gatewayCalled := true }
    | some text =>
      match parseStage text with
      | none =>
        { result := .error (.internalServer formatErrMsg)
          repo := repo, fileWritten := true, gatewayCalled := true }
      | some data =>
        match validateExtractedData data with
        | none =>
          { result := .error (.internalServer genericErrMsg)
            repo := repo, fileWritten := true, gatewayCalled := true }
        | some false =>
          { result := .error (.internalServer contentErrMsg)
            repo := repo, fileWritten := true, gatewayCalled := true }
        | some true =>
          let receipt := buildReceipt env file data
          { result := .ok receipt
            repo := mapSet repo env.receiptId receipt
            fileWritten := true, gatewayCalled := true }

/-- The fields of the constructed service that are configuration. -/
structure ReceiptService where
  apiKey : String
  modelName : String

/-- The constructor: reads `process.env.GEMINI_API_KEY` (`none` when the
variable is absent), throws when the value is falsy (absent, or the empty
string), otherwise configures the fixed model identifier. -/
def constructService (geminiApiKeyEnv : Option String) :
    Except String ReceiptService :=
  match geminiApiKeyEnv with
  | none => .error "GEMINI_API_KEY environment variable is required"
  | some key =>
    if key = "" then .error "GEMINI_API_KEY environment variable is required"
    else .ok { apiKey := key, modelName := "gemini-1.5-flash" }

/-! ## The schema conditions in the words of the specification

Transcribed from the spec's list of conjunctive checks, for comparison
with the source-derived `validateExtractedData` (claim C2). -/

/-- The claim's conditions: date a string, currency a string of length
exactly 3, vendor_name a string, receipt_items an array each of whose
elements has a string `item_name` and a numeric `item_cost` (empty array
allowed), tax a number, total a number. -/
def schemaClaimOk (data : Json) : Prop :=
  jsIsString (getField data "date") = true ∧
  (∃ c, getField data "currency" = Json.str c ∧ c.length = 3) ∧
  jsIsString (getField data "vendor_name") = true ∧
  (∃ items, getField data "receipt_items" = Json.arr items ∧
    ∀ it ∈ items, jsIsString (getField it "item_name") = true ∧
      jsIsNumber (getField it "item_cost") = true) ∧
  jsIsNumber (getField data "tax") = true ∧
  jsIsNumber (getField data "total") = true

/-! ## Concrete sample inputs used by the witnesses -/

/-- A gateway reply: the schema-valid JSON object of the repo's test
fixture, with one line item. -/
def sampleText : String :=
  "\x7b\"date\":\"2024-01-15\",\"currency\":\"USD\",\"vendor_name\":\"Test Store\",\"receipt_items\":[\x7b\"item_name\":\"Coffee\",\"item_cost\":4.5\x7d],\"tax\":1.35,\"total\":14.84\x7d"

/-- The parsed value of `sampleText`. -/
def sampleData : Json :=
  Json.obj [("date", Json.str "2024-01-15"), ("currency", Json.str "USD"),
    ("vendor_name", Json.str "Test Store"),
    ("receipt_items", Json.arr [Json.obj [("item_name", Json.str "Coffee"),
      ("item_cost", Json.num (mkRat 9 2))]]),
    ("tax", Json.num (mkRat 27 20)), ("total", Json.num (mkRat 371 25))]

/-- The fields of a small schema-valid object with no items. -/
def smallFields : List (String × Json) :=
  [("date", Json.str "2024-01-15"), ("currency", Json.str "USD"),
    ("vendor_name", Json.str "T"), ("receipt_items", Json.arr []),
    ("tax", Json.num 1), ("total", Json.num 2)]

/-- A small schema-valid object with no items. -/
def smallData : Json := Json.obj smallFields

/-- The serialized form of `smallData`. -/
def smallText : String :=
  "\x7b\"date\":\"2024-01-15\",\"currency\":\"USD\",\"vendor_name\":\"T\",\"receipt_items\":[],\"tax\":1,\"total\":2\x7d"

/-- A schema-valid object whose items array holds a `null` element, the
input on which `validateExtractedData` throws. -/
def nullItemData : Json :=
  Json.obj [("date", Json.str "2024-01-15"), ("currency", Json.str "USD"),
    ("vendor_name", Json.str "V"), ("receipt_items", Json.arr [Json.null]),
    ("tax", Json.num 1), ("total", Json.num 2)]

/-- An upload with an accepted media type. -/
def sampleFile : UploadFile := { mimetype := "image/png", originalname := "receipt.png" }

/-- An upload with a rejected media type. -/
def pdfFile : UploadFile := { mimetype := "application/pdf", originalname := "receipt.pdf" }

/-- An environment in which everything external succeeds and the gateway
answers `sampleText`. -/
def sampleEnv : ExtractEnv :=
  { receiptId := "id-1", writeOk := true, aiReply := some sampleText }

/-- Same externals, gateway answers the small fixture. -/
def smallEnv : ExtractEnv :=
  { receiptId := "id-1", writeOk := true, aiReply := some smallText }

/-- A body wrapped in the fenced code-block markers of the round-trip
property: \x60\x60\x60json, newline, body, newline, \x60\x60\x60. -/
def fenceWrap (body : String) : String := "```json\n" ++ body ++ "\n```"

/-- The body text contains no backtick character. -/
abbrev noBacktick (s : String) : Prop := ∀ c ∈ s.data, c ≠ backtick

/-- Gateway environment whose reply is the JSON literal `null`. -/
def nullEnv : ExtractEnv :=
  { receiptId := "id-1", writeOk := true, aiReply := some "null" }

/-- A valid JSON body whose single string value consists of three
backticks. -/
def backtickBody : String := "\x7b\"a\":\"```\"\x7d"

/-- `smallText` with one extra top-level property appended. -/
def extraText : String :=
  "\x7b\"date\":\"2024-01-15\",\"currency\":\"USD\",\"vendor_name\":\"T\",\"receipt_items\":[],\"tax\":1,\"total\":2,\"note\":\"x\"\x7d"

/-- Gateway environment whose reply is `extraText`. -/
def extraEnv : ExtractEnv :=
  { receiptId := "id-1", writeOk := true, aiReply := some extraText }

/-! # Helper lemmas -/

theorem dropNl_nl (l : List Char) : dropNl ('\n' :: l) = l := by
  simp [dropNl]

theorem dropNl_length_le (l : List Char) : (dropNl l).length ≤ l.length := by
  cases l with
  | nil => simp [dropNl]
  | cons c cs => by_cases h : c = '\n' <;> simp [dropNl, h]

theorem stripJsonFenceF_irrel :
    ∀ n m (l : List Char), l.length ≤ n → l.length ≤ m →
      stripJsonFenceF n l = stripJsonFenceF m l := by
  intro n
  induction n with
  | zero =>
    intro m l hn _
    have : l = [] := List.eq_nil_of_length_eq_zero (Nat.le_zero.mp hn)
    subst this
    cases m <;> simp [stripJsonFenceF]
  | succ n ih =>
    intro m l hn hm
    cases l with
    | nil => cases m <;> simp [stripJsonFenceF]
    | cons c cs =>
      cases m with
      | zero => simp at hm
      | succ m =>
        simp only [stripJsonFenceF]
        split
        · apply ih
          · have h1 := dropNl_length_le ((c :: cs).drop 7)
            have h2 : ((c :: cs).drop 7).length = (c :: cs).length - 7 :=
              List.length_drop ..
            simp only [List.length_cons] at *
            omega
          · have h1 := dropNl_length_le ((c :: cs).drop 7)
            have h2 : ((c :: cs).drop 7).length = (c :: cs).length - 7 :=
              List.length_drop ..
            simp only [List.length_cons] at *
            omega
        · have : cs.length ≤ n := by simp only [List.length_cons] at hn; omega
          have hm' : cs.length ≤ m := by simp only [List.length_cons] at hm; omega
          rw [ih m cs this hm']

theorem stripBareFenceF_irrel :
    ∀ n m (l : List Char), l.length ≤ n → l.length ≤ m →
      stripBareFenceF n l = stripBareFenceF m l := by
  intro n
  induction n with
  | zero =>
    intro m l hn _
    have : l = [] := List.eq_nil_of_length_eq_zero (Nat.le_zero.mp hn)
    subst this
    cases m <;> simp [stripBareFenceF]
  | succ n ih =>
    intro m l hn hm
    cases l with
    | nil => cases m <;> simp [stripBareFenceF]
    | cons c cs =>
      cases m with
      | zero => simp at hm
      | succ m =>
        simp only [stripBareFenceF]
        split
        · apply ih
          · have h1 := dropNl_length_le ((c :: cs).drop 3)
            have h2 : ((c :: cs).drop 3).length = (c :: cs).length - 3 :=
              List.length_drop ..
            simp only [List.length_cons] at *
            omega
          · have h1 := dropNl_length_le ((c :: cs).drop 3)
            have h2 : ((c :: cs).drop 3).length = (c :: cs).length - 3 :=
              List.length_drop ..
            simp only [List.length_cons] at *
            omega
        · have : cs.length ≤ n := by simp only [List.length_cons] at hn; omega
          have hm' : cs.length ≤ m := by simp only [List.length_cons] at hm; omega
          rw [ih m cs this hm']

theorem not_take7_fenceJson (c : Char) (cs : List Char) (h : c ≠ backtick) :
    ¬((c :: cs).take 7 = fenceJson) := by
  intro heq
  have h1 : (c :: cs).take 7 = c :: cs.take 6 := rfl
  have h2 : fenceJson = backtick :: "``json".data := rfl
  rw [h1, h2] at heq
  injection heq with heq1 _
  exact h heq1

theorem not_take3_fenceBare (c : Char) (cs : List Char) (h : c ≠ backtick) :
    ¬((c :: cs).take 3 = fenceBare) := by
  intro heq
  have h1 : (c :: cs).take 3 = c :: cs.take 2 := rfl
  have h2 : fenceBare = backtick :: "``".data := rfl
  rw [h1, h2] at heq
  injection heq with heq1 _
  exact h heq1

theorem stripJsonFence_cons_ne (c : Char) (cs : List Char) (h : c ≠ backtick) :
    stripJsonFence (c :: cs) = c :: stripJsonFence cs := by
  show stripJsonFenceF (cs.length + 1) (c :: cs) = c :: stripJsonFenceF cs.length cs
  simp only [stripJsonFenceF]
  rw [if_neg (not_take7_fenceJson c cs h)]

theorem stripBareFence_cons_ne (c : Char) (cs : List Char) (h : c ≠ backtick) :
    stripBareFence (c :: cs) = c :: stripBareFence cs := by
  show stripBareFenceF (cs.length + 1) (c :: cs) = c :: stripBareFenceF cs.length cs
  simp only [stripBareFenceF]
  rw [if_neg (not_take3_fenceBare c cs h)]

theorem stripJsonFence_append (p t : List Char) (h : ∀ c ∈ p, c ≠ backtick) :
    stripJsonFence (p ++ t) = p ++ stripJsonFence t := by
  induction p with
  | nil => simp
  | cons c cs ih =>
    rw [List.cons_append,
      stripJsonFence_cons_ne c (cs ++ t) (h c (List.mem_cons_self c cs)),
      ih (fun x hx => h x (List.mem_cons_of_mem c hx)), List.cons_append]

theorem stripBareFence_append (p t : List Char) (h : ∀ c ∈ p, c ≠ backtick) :
    stripBareFence (p ++ t) = p ++ stripBareFence t := by
  induction p with
  | nil => simp
  | cons c cs ih =>
    rw [List.cons_append,
      stripBareFence_cons_ne c (cs ++ t) (h c (List.mem_cons_self c cs)),
      ih (fun x hx => h x (List.mem_cons_of_mem c hx)), List.cons_append]

theorem stripJsonFence_head (rest : List Char) :
    stripJsonFence (fenceJson ++ '\n' :: rest) = stripJsonFence rest := by
  have hlen : (fenceJson ++ '\n' :: rest).length = rest.length + 7 + 1 := by
    have : fenceJson.length = 7 := rfl
    simp [List.length_append, this]
    omega
  show stripJsonFenceF (fenceJson ++ '\n' :: rest).length
      (fenceJson ++ '\n' :: rest) = stripJsonFenceF rest.length rest
  rw [hlen]
  rw [show fenceJson ++ '\n' :: rest =
    backtick :: ("``json".data ++ '\n' :: rest) from rfl]
  simp only [stripJsonFenceF]
  rw [if_pos (show (backtick :: ("``json".data ++ '\n' :: rest)).take 7 =
    fenceJson from rfl)]
  rw [show dropNl ((backtick :: ("``json".data ++ '\n' :: rest)).drop 7) =
    rest from rfl]
  exact stripJsonFenceF_irrel (rest.length + 7) rest.length rest
    (by omega) (le_refl _)

theorem stripJsonFence_self (l : List Char) (h : ∀ c ∈ l, c ≠ backtick) :
    stripJsonFence l = l := by
  have h1 := stripJsonFence_append l [] h
  simpa [show stripJsonFence [] = [] from rfl] using h1

theorem stripBareFence_self (l : List Char) (h : ∀ c ∈ l, c ≠ backtick) :
    stripBareFence l = l := by
  have h1 := stripBareFence_append l [] h
  simpa [show stripBareFence [] = [] from rfl] using h1

theorem jsTrim_append_nl (l : List Char) : jsTrim (l ++ ['\n']) = jsTrim l := by
  unfold jsTrim
  rw [List.dropWhile_append]
  by_cases h : (l.dropWhile isTrimWs).isEmpty
  · rw [if_pos h]
    rw [List.isEmpty_iff.mp h]
    simp [List.dropWhile, isTrimWs]
  · rw [if_neg h]
    rw [List.reverse_append]
    show ((['\n'] ++ (l.dropWhile isTrimWs).reverse).dropWhile isTrimWs).reverse = _
    rw [List.dropWhile_append]
    simp [List.dropWhile, isTrimWs]

theorem cleanResponse_wrap (body : String) (h : noBacktick body) :
    cleanResponse (fenceWrap body) = cleanResponse body := by
  unfold noBacktick at h
  unfold cleanResponse fenceWrap
  apply congrArg String.mk
  have hdata : ("```json\n" ++ body ++ "\n```").data =
      fenceJson ++ '\n' :: (body.data ++ '\n' :: fenceBare) := by
    rw [String.data_append, String.data_append]
    rw [show ("```json\n" : String).data = fenceJson ++ ['\n'] from rfl]
    rw [show ("\n```" : String).data = '\n' :: fenceBare from rfl]
    simp [List.append_assoc]
  rw [hdata, stripJsonFence_head,
    stripJsonFence_append body.data ('\n' :: fenceBare) h,
    stripJsonFence_cons_ne '\n' fenceBare (by decide),
    show stripJsonFence fenceBare = fenceBare from rfl,
    stripBareFence_append body.data ('\n' :: fenceBare) h,
    stripBareFence_cons_ne '\n' fenceBare (by decide),
    show stripBareFence fenceBare = [] from rfl,
    stripJsonFence_self body.data h, stripBareFence_self body.data h]
  exact jsTrim_append_nl body.data

theorem find?_mapSet (repo : Repo) (k : String) (v : ReceiptResponse) :
    List.find? (fun p => p.1 == k) (mapSet repo k v) = some (k, v) := by
  induction repo with
  | nil => simp [mapSet]
  | cons p rest ih =>
    obtain ⟨k', v'⟩ := p
    by_cases h : k' = k
    · simp [mapSet, h]
    · simp only [mapSet, if_neg h]
      rw [List.find?_cons_of_neg _ (by simpa using h)]
      exact ih

theorem getReceiptById_mapSet (repo : Repo) (k : String) (v : ReceiptResponse) :
    getReceiptById (mapSet repo k v) k = some v := by
  simp [getReceiptById, find?_mapSet]

theorem mem_getAllReceipts_mapSet (repo : Repo) (k : String)
    (v : ReceiptResponse) : v ∈ getAllReceipts (mapSet repo k v) := by
  induction repo with
  | nil => simp [mapSet, getAllReceipts]
  | cons p rest ih =>
    obtain ⟨k', v'⟩ := p
    by_cases h : k' = k
    · simp [mapSet, getAllReceipts, h]
    · simp only [mapSet, if_neg h, getAllReceipts, List.map_cons]
      exact List.mem_cons_of_mem _ ih

theorem mapSet_fresh (repo : Repo) (k : String) (v : ReceiptResponse)
    (h : ∀ p ∈ repo, p.1 ≠ k) : mapSet repo k v = repo ++ [(k, v)] := by
  induction repo with
  | nil => simp [mapSet]
  | cons p rest ih =>
    obtain ⟨k', v'⟩ := p
    have hk : k' ≠ k := h (k', v') (List.mem_cons_self _ _)
    simp only [mapSet, if_neg hk, List.cons_append, List.cons.injEq, true_and]
    exact ih (fun q hq => h q (List.mem_cons_of_mem _ hq))

theorem getReceiptById_absent (repo : Repo) (id : String)
    (h : ∀ p ∈ repo, p.1 ≠ id) : getReceiptById repo id = none := by
  unfold getReceiptById
  rw [List.find?_eq_none.mpr (fun p hp => by simpa using h p hp)]
  rfl

theorem itemsCheck_eq_true_iff (items : List Json) :
    itemsCheck items = some true ↔ ∀ it ∈ items, itemOk it = true := by
  induction items with
  | nil => simp [itemsCheck]
  | cons it rest ih =>
    cases it with
    | null =>
      simp [itemsCheck, itemOk, getField, jsIsString]
    | bool b =>
      by_cases h : itemOk (Json.bool b) = true <;> simp [itemsCheck, h, ih]
    | num q =>
      by_cases h : itemOk (Json.num q) = true <;> simp [itemsCheck, h, ih]
    | str s =>
      by_cases h : itemOk (Json.str s) = true <;> simp [itemsCheck, h, ih]
    | arr xs =>
      by_cases h : itemOk (Json.arr xs) = true <;> simp [itemsCheck, h, ih]
    | obj fs =>
      by_cases h : itemOk (Json.obj fs) = true <;> simp [itemsCheck, h, ih]

theorem itemsCheck_none_mem (items : List Json)
    (h : itemsCheck items = none) : Json.null ∈ items := by
  induction items with
  | nil => simp [itemsCheck] at h
  | cons it rest ih =>
    cases it with
    | null => exact List.mem_cons_self _ _
    | bool b =>
      simp only [itemsCheck] at h
      split at h
      · exact List.mem_cons_of_mem _ (ih h)
      · simp at h
    | num q =>
      simp only [itemsCheck] at h
      split at h
      · exact List.mem_cons_of_mem _ (ih h)
      · simp at h
    | str s =>
      simp only [itemsCheck] at h
      split at h
      · exact List.mem_cons_of_mem _ (ih h)
      · simp at h
    | arr xs =>
      simp only [itemsCheck] at h
      split at h
      · exact List.mem_cons_of_mem _ (ih h)
      · simp at h
    | obj fs =>
      simp only [itemsCheck] at h
      split at h
      · exact List.mem_cons_of_mem _ (ih h)
      · simp at h

theorem jsIsString_iff (j : Json) : jsIsString j = true ↔ ∃ s, j = Json.str s := by
  cases j <;> simp [jsIsString]

theorem jsIsNumber_iff (j : Json) : jsIsNumber j = true ↔ ∃ q, j = Json.num q := by
  cases j <;> simp [jsIsNumber]

theorem truthy_of_date_string (data : Json)
    (h : jsIsString (getField data "date") = true) : truthy data = true := by
  cases data <;> simp_all [truthy, getField, jsIsString]

theorem itemOk_iff (it : Json) :
    itemOk it = true ↔
      jsIsString (getField it "item_name") = true ∧
        jsIsNumber (getField it "item_cost") = true := by
  simp [itemOk]

theorem validate_true_iff (data : Json) :
    validateExtractedData data = some true ↔ schemaClaimOk data := by
  constructor
  · intro h
    unfold validateExtractedData at h
    by_cases h1 : (!truthy data) = true
    · rw [if_pos h1] at h
      simp at h
    · rw [if_neg h1] at h
      by_cases h2 : (!jsIsString (getField data "date")) = true
      · rw [if_pos h2] at h
        simp at h
      · rw [if_neg h2] at h
        by_cases h3 : (!jsIsString (getField data "currency")) = true
        · rw [if_pos h3] at h
          simp at h
        · rw [if_neg h3] at h
          by_cases h4 : (!jsIsString (getField data "vendor_name")) = true
          · rw [if_pos h4] at h
            simp at h
          · rw [if_neg h4] at h
            simp only [Bool.not_eq_true, Bool.not_eq_false'] at h1 h2 h3 h4
            rcases hri : getField data "receipt_items" with
              _ | b | q | s | items | fs
            · rw [hri] at h; simp at h
            · rw [hri] at h; simp at h
            · rw [hri] at h; simp at h
            · rw [hri] at h; simp at h
            · rw [hri] at h
              simp only [] at h
              rcases hic : itemsCheck items with _ | b
              · rw [hic] at h; simp at h
              · rw [hic] at h
                cases b with
                | false => simp at h
                | true =>
                  simp only [] at h
                  by_cases h5 : (!jsIsNumber (getField data "tax")) = true
                  · rw [if_pos h5] at h
                    simp at h
                  · rw [if_neg h5] at h
                    by_cases h6 : (!jsIsNumber (getField data "total")) = true
                    · rw [if_pos h6] at h
                      simp at h
                    · rw [if_neg h6] at h
                      simp only [Bool.not_eq_true, Bool.not_eq_false'] at h5 h6
                      obtain ⟨c, hc⟩ := (jsIsString_iff _).mp h3
                      refine ⟨h2, ⟨c, hc, ?_⟩, h4, ⟨items, hri, ?_⟩, h5, h6⟩
                      · rw [hc] at h
                        simpa [jsStrLength] using h
                      · intro it hit
                        exact (itemOk_iff it).mp
                          ((itemsCheck_eq_true_iff items).mp hic it hit)
            · rw [hri] at h; simp at h
  · rintro ⟨hd, ⟨c, hc, hclen⟩, hv, ⟨items, hitems, hall⟩, ht, hto⟩
    have htr : truthy data = true := truthy_of_date_string data hd
    unfold validateExtractedData
    rw [if_neg (by simp [htr]), if_neg (by simp [hd]),
      if_neg (by simp [hc, jsIsString]), if_neg (by simp [hv]), hitems]
    simp only []
    rw [(itemsCheck_eq_true_iff items).mpr
      (fun it hit => (itemOk_iff it).mpr (hall it hit))]
    simp only []
    rw [if_neg (by simp [ht]), if_neg (by simp [hto]), hc]
    simp [jsStrLength, hclen]

theorem validate_none_items (data : Json)
    (h : validateExtractedData data = none) :
    ∃ items, getField data "receipt_items" = Json.arr items ∧
      Json.null ∈ items := by
  unfold validateExtractedData at h
  split at h
  · simp at h
  · split at h
    · simp at h
    · split at h
      · simp at h
      · split at h
        · simp at h
        · split at h
          · rename_i items heqItems
            split at h
            · exact ⟨items, heqItems, itemsCheck_none_mem items (by assumption)⟩
            · simp at h
            · split at h
              · simp at h
              · split at h
                · simp at h
                · simp at h
          · simp at h

theorem validate_nonobj (data : Json) (h : jsIsObj data = false) :
    validateExtractedData data = some false := by
  cases data <;>
    simp_all [validateExtractedData, truthy, getField, jsIsString, jsIsObj]

theorem extract_ok_cases (env : ExtractEnv) (file : UploadFile) (repo : Repo)
    (r : ReceiptResponse)
    (h : (extractReceiptDetails env file repo).result = .ok r) :
    allowedTypes.contains file.mimetype = true ∧ env.writeOk = true ∧
      ∃ text data, env.aiReply = some text ∧ parseStage text = some data ∧
        validateExtractedData data = some true ∧
        r = buildReceipt env file data ∧
        (extractReceiptDetails env file repo).repo =
          mapSet repo env.receiptId r := by
  by_cases hm : file.mimetype ∈ allowedTypes
  · by_cases h2 : env.writeOk = true
    · rcases hai : env.aiReply with _ | text
      · simp [extractReceiptDetails, hm, h2, hai] at h
      · rcases hp : parseStage text with _ | data
        · simp [extractReceiptDetails, hm, h2, hai, hp] at h
        · rcases hv : validateExtractedData data with _ | b
          · simp [extractReceiptDetails, hm, h2, hai, hp, hv] at h
          · cases b with
            | false => simp [extractReceiptDetails, hm, h2, hai, hp, hv] at h
            | true =>
              have hr : buildReceipt env file data = r := by
                simpa [extractReceiptDetails, hm, h2, hai, hp, hv] using h
              exact ⟨by simpa using hm, h2, text, data, rfl, hp, hv, hr.symm, by
                simp [extractReceiptDetails, hm, h2, hai, hp, hv, hr]⟩
    · simp [extractReceiptDetails, hm, eq_false_of_ne_true h2] at h
  · simp [extractReceiptDetails, hm] at h

theorem extract_error_repo (env : ExtractEnv) (file : UploadFile)
    (repo : Repo) (e : HttpError)
    (h : (extractReceiptDetails env file repo).result = .error e) :
    (extractReceiptDetails env file repo).repo = repo := by
  by_cases hm : file.mimetype ∈ allowedTypes
  · by_cases h2 : env.writeOk = true
    · rcases hai : env.aiReply with _ | text
      · simp [extractReceiptDetails, hm, h2, hai]
      · rcases hp : parseStage text with _ | data
        · simp [extractReceiptDetails, hm, h2, hai, hp]
        · rcases hv : validateExtractedData data with _ | b
          · simp [extractReceiptDetails, hm, h2, hai, hp, hv]
          · cases b with
            | false => simp [extractReceiptDetails, hm, h2, hai, hp, hv]
            | true => simp [extractReceiptDetails, hm, h2, hai, hp, hv] at h
    · simp [extractReceiptDetails, hm, eq_false_of_ne_true h2]
  · simp [extractReceiptDetails, hm]

theorem getField_obj_append_ne (fs : List (String × Json)) (k f : String)
    (v : Json) (h : k ≠ f) :
    getField (Json.obj (fs ++ [(k, v)])) f = getField (Json.obj fs) f := by
  simp [getField, List.foldl_append, h]

theorem validate_append_ne (fs : List (String × Json)) (k : String) (v : Json)
    (h1 : k ≠ "date") (h2 : k ≠ "currency") (h3 : k ≠ "vendor_name")
    (h4 : k ≠ "receipt_items") (h5 : k ≠ "tax") (h6 : k ≠ "total") :
    validateExtractedData (Json.obj (fs ++ [(k, v)])) =
      validateExtractedData (Json.obj fs) := by
  unfold validateExtractedData
  rw [getField_obj_append_ne fs k "date" v h1,
    getField_obj_append_ne fs k "currency" v h2,
    getField_obj_append_ne fs k "vendor_name" v h3,
    getField_obj_append_ne fs k "receipt_items" v h4,
    getField_obj_append_ne fs k "tax" v h5,
    getField_obj_append_ne fs k "total" v h6]
  simp [truthy]

theorem buildReceipt_append_ne (env : ExtractEnv) (file : UploadFile)
    (fs : List (String × Json)) (k : String) (v : Json)
    (h1 : k ≠ "date") (h2 : k ≠ "currency") (h3 : k ≠ "vendor_name")
    (h4 : k ≠ "receipt_items") (h5 : k ≠ "tax") (h6 : k ≠ "total") :
    buildReceipt env file (Json.obj (fs ++ [(k, v)])) =
      buildReceipt env file (Json.obj fs) := by
  unfold buildReceipt
  rw [getField_obj_append_ne fs k "date" v h1,
    getField_obj_append_ne fs k "currency" v h2,
    getField_obj_append_ne fs k "vendor_name" v h3,
    getField_obj_append_ne fs k "receipt_items" v h4,
    getField_obj_append_ne fs k "tax" v h5,
    getField_obj_append_ne fs k "total" v h6]

/-! # Claim theorems -/

/-- C1: for every accepted upload where the gateway returns a
syntactically valid JSON object that passes schema validation,
`extractReceiptDetails` returns a Receipt whose `date`, `currency`,
`vendor_name`, `receipt_items`, `tax` and `total` equal the AI's fields
exactly, whose `id` is the non-empty generated identifier (unique across
calls given unique generated identifiers), and whose `image_url` is
`/uploads/` ++ generated id ++ `_` ++ original filename (hence containing
the uploads prefix and ending with the original filename, in particular
with its extension). -/
theorem claim1_success_fields (env : ExtractEnv) (file : UploadFile)
    (repo : Repo) (text : String) (data : Json)
    (hmime : file.mimetype ∈ allowedTypes)
    (hw : env.writeOk = true)
    (hai : env.aiReply = some text)
    (hp : parseStage text = some data)
    (hv : validateExtractedData data = some true)
    (hid : env.receiptId ≠ "") :
    ∃ r, (extractReceiptDetails env file repo).result = .ok r ∧
      r.date = getField data "date" ∧
      r.currency = getField data "currency" ∧
      r.vendor_name = getField data "vendor_name" ∧
      r.receipt_items = getField data "receipt_items" ∧
      r.tax = getField data "tax" ∧
      r.total = getField data "total" ∧
      r.id = env.receiptId ∧ r.id ≠ "" ∧
      r.image_url = "/uploads/" ++ (env.receiptId ++ "_" ++ file.originalname) ∧
      (∃ rest, r.image_url = "/uploads/" ++ rest) ∧
      (∃ pre, r.image_url = pre ++ file.originalname) ∧
      (∀ env₂ file₂ repo₂ r₂,
        (extractReceiptDetails env₂ file₂ repo₂).result = .ok r₂ →
        env₂.receiptId ≠ env.receiptId → r₂.id ≠ r.id) := by
  refine ⟨buildReceipt env file data, ?_, rfl, rfl, rfl, rfl, rfl, rfl, rfl,
    hid, rfl, ⟨env.receiptId ++ "_" ++ file.originalname, rfl⟩,
    ⟨"/uploads/" ++ (env.receiptId ++ "_"),
      (String.append_assoc "/uploads/" (env.receiptId ++ "_")
        file.originalname).symm⟩, ?_⟩
  · simp [extractReceiptDetails, hmime, hw, hai, hp, hv]
  · intro env₂ file₂ repo₂ r₂ hok hne
    obtain ⟨-, -, t₂, d₂, -, -, -, hr₂, -⟩ :=
      extract_ok_cases env₂ file₂ repo₂ r₂ hok
    rw [hr₂]
    simpa [buildReceipt] using hne

set_option maxRecDepth 200000 in
/-- Witness for C1 at the concrete small fixture. -/
theorem claim1_witness :
    ("image/png" ∈ allowedTypes) ∧ parseStage smallText = some smallData ∧
      validateExtractedData smallData = some true ∧
      (∃ r, (extractReceiptDetails smallEnv sampleFile []).result = .ok r ∧
        r.date = getField smallData "date" ∧
        r.currency = getField smallData "currency" ∧
        r.vendor_name = getField smallData "vendor_name" ∧
        r.receipt_items = getField smallData "receipt_items" ∧
        r.tax = getField smallData "tax" ∧
        r.total = getField smallData "total" ∧
        r.id = smallEnv.receiptId ∧ r.id ≠ "" ∧
        r.image_url =
          "/uploads/" ++ (smallEnv.receiptId ++ "_" ++ sampleFile.originalname) ∧
        (∃ rest, r.image_url = "/uploads/" ++ rest) ∧
        (∃ pre, r.image_url = pre ++ sampleFile.originalname) ∧
        (∀ env₂ file₂ repo₂ r₂,
          (extractReceiptDetails env₂ file₂ repo₂).result = .ok r₂ →
          env₂.receiptId ≠ smallEnv.receiptId → r₂.id ≠ r.id)) :=
  ⟨by decide, by rfl, rfl,
    claim1_success_fields smallEnv sampleFile [] smallText smallData
      (by decide) rfl rfl (by rfl) rfl (by decide)⟩

/-- C4: an upload whose declared media type is outside the accepted set
(exactly the four image MIME strings) is rejected with the client-fault
carrying the fixed message, before any image write, gateway call, or
repository change. -/
theorem claim4_reject_unsupported (env : ExtractEnv) (file : UploadFile)
    (repo : Repo) (h : file.mimetype ∉ allowedTypes) :
    (extractReceiptDetails env file repo).result =
      .error (.badRequest unsupportedTypeMsg) ∧
    (extractReceiptDetails env file repo).repo = repo ∧
    (extractReceiptDetails env file repo).fileWritten = false ∧
    (extractReceiptDetails env file repo).gatewayCalled = false ∧
    allowedTypes = ["image/jpeg", "image/jpg", "image/png", "image/webp"] ∧
    unsupportedTypeMsg = "Only .jpg, .jpeg, .png, and .webp files are allowed" := by
  refine ⟨?_, ?_, ?_, ?_, rfl, rfl⟩ <;> simp [extractReceiptDetails, h]

/-- Witness for C4 at a `application/pdf` upload. -/
theorem claim4_witness :
    ("application/pdf" ∉ allowedTypes) ∧
    (extractReceiptDetails smallEnv pdfFile []).result =
      .error (.badRequest unsupportedTypeMsg) ∧
    (extractReceiptDetails smallEnv pdfFile []).fileWritten = false :=
  ⟨by decide,
    (claim4_reject_unsupported smallEnv pdfFile [] (by decide)).1,
    (claim4_reject_unsupported smallEnv pdfFile [] (by decide)).2.2.1⟩

/-- C6: after a successful extraction, `getReceiptById` at the returned
receipt's id yields a record equal to it as stored and `getAllReceipts`
contains it; an identifier under which nothing was inserted yields
absent. -/
theorem claim6_lookup (env : ExtractEnv) (file : UploadFile) (repo : Repo)
    (r : ReceiptResponse)
    (hok : (extractReceiptDetails env file repo).result = .ok r) :
    getReceiptById (extractReceiptDetails env file repo).repo r.id = some r ∧
    r ∈ getAllReceipts (extractReceiptDetails env file repo).repo ∧
    (∀ repo₂ id, (∀ p ∈ repo₂, p.1 ≠ id) → getReceiptById repo₂ id = none) := by
  obtain ⟨-, -, t, d, -, -, -, hr, hrepo⟩ := extract_ok_cases env file repo r hok
  have hid : r.id = env.receiptId := by rw [hr]; rfl
  refine ⟨?_, ?_, fun repo₂ id h => getReceiptById_absent repo₂ id h⟩
  · rw [hrepo, hid]
    exact getReceiptById_mapSet repo env.receiptId r
  · rw [hrepo]
    exact mem_getAllReceipts_mapSet repo env.receiptId r

set_option maxRecDepth 200000 in
/-- Witness for C6 at the concrete small fixture. -/
theorem claim6_witness :
    getReceiptById (extractReceiptDetails smallEnv sampleFile []).repo
        (buildReceipt smallEnv sampleFile smallData).id =
      some (buildReceipt smallEnv sampleFile smallData) ∧
    buildReceipt smallEnv sampleFile smallData ∈
      getAllReceipts (extractReceiptDetails smallEnv sampleFile []).repo ∧
    getReceiptById [] "missing" = none :=
  ⟨(claim6_lookup smallEnv sampleFile []
      (buildReceipt smallEnv sampleFile smallData) (by rfl)).1,
    (claim6_lookup smallEnv sampleFile []
      (buildReceipt smallEnv sampleFile smallData) (by rfl)).2.1,
    (claim6_lookup smallEnv sampleFile []
      (buildReceipt smallEnv sampleFile smallData) (by rfl)).2.2 [] "missing"
      (by simp)⟩

/-- C7: the repository is append-only and write-once: a failing
invocation leaves the map unchanged, and a successful invocation under a
fresh generated identifier appends exactly one record. -/
theorem claim7_append_only (env : ExtractEnv) (file : UploadFile)
    (repo : Repo) :
    (∀ e, (extractReceiptDetails env file repo).result = .error e →
      (extractReceiptDetails env file repo).repo = repo) ∧
    (∀ r, (extractReceiptDetails env file repo).result = .ok r →
      (∀ p ∈ repo, p.1 ≠ env.receiptId) →
      (extractReceiptDetails env file repo).repo =
        repo ++ [(env.receiptId, r)]) := by
  constructor
  · intro e he
    exact extract_error_repo env file repo e he
  · intro r hr hfresh
    obtain ⟨-, -, t, d, -, -, -, -, hrepo⟩ :=
      extract_ok_cases env file repo r hr
    rw [hrepo, mapSet_fresh repo env.receiptId r hfresh]

set_option maxRecDepth 200000 in
/-- Witness for C7: a failing run (bad media type) leaves the empty
repository unchanged; a successful run on a fresh id appends one
record. -/
theorem claim7_witness :
    (extractReceiptDetails smallEnv pdfFile []).repo = [] ∧
    (extractReceiptDetails smallEnv sampleFile []).repo =
      [] ++ [("id-1", buildReceipt smallEnv sampleFile smallData)] :=
  ⟨(claim7_append_only smallEnv pdfFile []).1
      (.badRequest unsupportedTypeMsg) (by rfl),
    (claim7_append_only smallEnv sampleFile []).2
      (buildReceipt smallEnv sampleFile smallData) (by rfl) (by simp)⟩

/-- C9: `validateExtractedData` is total over arbitrary parsed JSON
values: on any value that is not an object (null, a bare number, a
string, an array, a boolean) it returns false without raising, so an
extraction whose gateway reply parses to such a value fails with the
AI-content error. -/
theorem claim9_nonobject_safe (env : ExtractEnv) (file : UploadFile)
    (repo : Repo) (text : String) (data : Json)
    (hmime : file.mimetype ∈ allowedTypes)
    (hw : env.writeOk = true)
    (hai : env.aiReply = some text)
    (hp : parseStage text = some data)
    (hobj : jsIsObj data = false) :
    validateExtractedData data = some false ∧
    (extractReceiptDetails env file repo).result =
      .error (.internalServer contentErrMsg) := by
  have hv := validate_nonobj data hobj
  exact ⟨hv, by simp [extractReceiptDetails, hmime, hw, hai, hp, hv]⟩

/-- Witness for C9 with the gateway reply `null`. -/
theorem claim9_witness :
    validateExtractedData Json.null = some false ∧
    (extractReceiptDetails nullEnv sampleFile []).result =
      .error (.internalServer contentErrMsg) :=
  claim9_nonobject_safe nullEnv sampleFile [] "null" Json.null
    (by decide) rfl rfl (by rfl) rfl

/-- C10: the persisted and returned Receipt has exactly the eight
declared fields: an extra top-level property in the AI's parsed object
changes nothing about the resulting receipt (it is dropped), while
`receipt_items` is carried over exactly as parsed, so extra properties
inside individual items are retained. -/
theorem claim10_extra_fields (env : ExtractEnv) (file : UploadFile)
    (repo : Repo) (text : String) (fs : List (String × Json)) (k : String)
    (v : Json)
    (hmime : file.mimetype ∈ allowedTypes)
    (hw : env.writeOk = true)
    (hai : env.aiReply = some text)
    (hp : parseStage text = some (Json.obj (fs ++ [(k, v)])))
    (h1 : k ≠ "date") (h2 : k ≠ "currency") (h3 : k ≠ "vendor_name")
    (h4 : k ≠ "receipt_items") (h5 : k ≠ "tax") (h6 : k ≠ "total")
    (hv : validateExtractedData (Json.obj fs) = some true) :
    (extractReceiptDetails env file repo).result =
      .ok (buildReceipt env file (Json.obj fs)) ∧
    (buildReceipt env file (Json.obj fs)).receipt_items =
      getField (Json.obj fs) "receipt_items" := by
  have hv2 : validateExtractedData (Json.obj (fs ++ [(k, v)])) = some true := by
    rw [validate_append_ne fs k v h1 h2 h3 h4 h5 h6]
    exact hv
  have hb := buildReceipt_append_ne env file fs k v h1 h2 h3 h4 h5 h6
  constructor
  · simp [extractReceiptDetails, hmime, hw, hai, hp, hv2, hb]
  · rfl

set_option maxRecDepth 200000 in
/-- Witness for C10: the small fixture with an extra `note` property. -/
theorem claim10_witness :
    parseStage extraText =
      some (Json.obj (smallFields ++ [("note", Json.str "x")])) ∧
    (extractReceiptDetails extraEnv sampleFile []).result =
      .ok (buildReceipt extraEnv sampleFile (Json.obj smallFields)) ∧
    (buildReceipt extraEnv sampleFile (Json.obj smallFields)).receipt_items =
      getField (Json.obj smallFields) "receipt_items" :=
  ⟨by rfl,
    (claim10_extra_fields extraEnv sampleFile [] extraText smallFields
      "note" (Json.str "x") (by decide) rfl rfl (by rfl) (by decide)
      (by decide) (by decide) (by decide) (by decide) (by decide) rfl).1,
    (claim10_extra_fields extraEnv sampleFile [] extraText smallFields
      "note" (Json.str "x") (by decide) rfl rfl (by rfl) (by decide)
      (by decide) (by decide) (by decide) (by decide) (by decide) rfl).2⟩

/-- C2 counterexample: a parsed value violating the schema (its items
array holds `null`, which has no string `item_name`) on which the
validator does not return false — the `every` callback throws a
`TypeError` (modelled as `none`). -/
theorem claim2_counterexample :
    ¬ schemaClaimOk nullItemData ∧
    validateExtractedData nullItemData = none ∧
    validateExtractedData nullItemData ≠ some false := by
  refine ⟨?_, rfl, by decide⟩
  rintro ⟨-, -, -, ⟨items, hitems, hall⟩, -, -⟩
  have harr : Json.arr [Json.null] = Json.arr items := by
    rw [← hitems]; rfl
  injection harr with hlist
  have hmem : Json.null ∈ items := by rw [← hlist]; simp
  have := (hall Json.null hmem).1
  simp [getField, jsIsString] at this

/-- C2, amended: the validator returns true exactly when all the
conjunctive schema conditions hold; a violation yields a non-true
result, which is `false` in every case except when the `receipt_items`
array contains a `null` element, where the element scan throws instead
of returning. -/
theorem claim2_validator_amended (data : Json) :
    (validateExtractedData data = some true ↔ schemaClaimOk data) ∧
    (validateExtractedData data = none →
      ∃ items, getField data "receipt_items" = Json.arr items ∧
        Json.null ∈ items) :=
  ⟨validate_true_iff data, validate_none_items data⟩

/-- Witness for C2 at the small fixture (validator accepts it, and the
schema conditions hold of it). -/
theorem claim2_witness :
    validateExtractedData smallData = some true ∧
    validateExtractedData Json.null = some false :=
  ⟨(claim2_validator_amended smallData).1.mpr
    ⟨rfl, ⟨"USD", rfl, rfl⟩, rfl,
      ⟨[], rfl, fun it hit => absurd hit (List.not_mem_nil it)⟩, rfl, rfl⟩,
    rfl⟩

/-- C8 counterexample: with the credential present but empty
(`GEMINI_API_KEY=""` — a falsy value in JavaScript), construction still
fails, so "with the credential present, construction succeeds" is false
as stated. -/
theorem claim8_counterexample :
    constructService (some "") =
      .error "GEMINI_API_KEY environment variable is required" ∧
    ∀ svc, constructService (some "") ≠ .ok svc := by
  exact ⟨rfl, fun svc h => by simp [constructService] at h⟩

/-- C8, amended: construction without the credential — absent, or set to
the empty string, which the falsy check treats identically — fails at
initialization with the fixed error message; with a non-empty credential
present it succeeds, configuring the fixed model identifier. -/
theorem claim8_startup_amended :
    constructService none =
      .error "GEMINI_API_KEY environment variable is required" ∧
    constructService (some "") =
      .error "GEMINI_API_KEY environment variable is required" ∧
    (∀ key, key ≠ "" → constructService (some key) =
      .ok { apiKey := key, modelName := "gemini-1.5-flash" }) :=
  ⟨rfl, rfl, fun key hk => by simp [constructService, hk]⟩

/-- Witness for C8 at a concrete non-empty key. -/
theorem claim8_witness :
    constructService (some "test-api-key") =
      .ok { apiKey := "test-api-key", modelName := "gemini-1.5-flash" } :=
  claim8_startup_amended.2.2 "test-api-key" (by decide)

/-- C5 counterexample: a valid JSON body whose string content contains
three backticks.  The sanitizer deletes fence markers everywhere, not
only at the edges, so the fenced wrap parses to a different structured
value than the unwrapped body. -/
theorem claim5_counterexample :
    parseStage (fenceWrap backtickBody) =
      some (Json.obj [("a", Json.str "")]) ∧
    jsonParse backtickBody = some (Json.obj [("a", Json.str "```")]) ∧
    Json.obj [("a", Json.str "")] ≠ Json.obj [("a", Json.str "```")] := by
  refine ⟨rfl, rfl, ?_⟩
  intro h
  injection h with hfields
  injection hfields with hpair
  have hval : Json.str "" = Json.str "```" := congrArg Prod.snd hpair
  injection hval with hs
  exact absurd hs (by decide)

/-- C5, amended: for every JSON body containing no backtick character,
the sanitize-and-parse stage yields the same structured value on the
fenced wrap as on the unwrapped body.  (The sanitizer deletes every
occurrence of the fence markers throughout the text — not only
leading/trailing ones — and then trims whitespace, which on such bodies
amounts to stripping exactly the wrapping markers.) -/
theorem claim5_roundtrip_amended (body : String) (h : noBacktick body) :
    parseStage (fenceWrap body) = parseStage body ∧
    (jsTrim body.data = body.data →
      parseStage (fenceWrap body) = jsonParse body) := by
  have hstage : parseStage (fenceWrap body) = parseStage body := by
    unfold parseStage
    rw [cleanResponse_wrap body h]
  refine ⟨hstage, fun htrim => ?_⟩
  rw [hstage]
  unfold parseStage
  have hclean : cleanResponse body = body := by
    unfold cleanResponse
    rw [stripJsonFence_self _ h, stripBareFence_self _ h, htrim]
  rw [hclean]

set_option maxRecDepth 200000 in
/-- Witness for C5 at the small backtick-free fixture. -/
theorem claim5_witness :
    noBacktick smallText ∧
    parseStage (fenceWrap smallText) = parseStage smallText ∧
    parseStage (fenceWrap smallText) = jsonParse smallText ∧
    jsonParse smallText = some smallData :=
  ⟨by decide, (claim5_roundtrip_amended smallText (by decide)).1,
    (claim5_roundtrip_amended smallText (by decide)).2 (by decide), by rfl⟩

/-- C3: every failure of `extractReceiptDetails` is exactly one of four
kinds, each tied to its cause: unsupported media type → client-fault
with the fixed message; unparseable gateway reply → server-fault
"AI model returned invalid response format"; parsed but schema-invalid
reply → server-fault "AI model returned incomplete or invalid data";
every other failure (file-write failure, gateway exception, and the
validator's own TypeError on a null item) → the generic server-fault
"Failed to process receipt image".  The model is a single-attempt
function, so no kind is retried and each is terminal. -/
theorem claim3_error_taxonomy (env : ExtractEnv) (file : UploadFile)
    (repo : Repo) (e : HttpError) :
    (extractReceiptDetails env file repo).result = .error e ↔
      ((file.mimetype ∉ allowedTypes ∧ e = .badRequest unsupportedTypeMsg) ∨
       (file.mimetype ∈ allowedTypes ∧ env.writeOk = false ∧
         e = .internalServer genericErrMsg) ∨
       (file.mimetype ∈ allowedTypes ∧ env.writeOk = true ∧
         env.aiReply = none ∧ e = .internalServer genericErrMsg) ∨
       (∃ text, file.mimetype ∈ allowedTypes ∧ env.writeOk = true ∧
         env.aiReply = some text ∧ parseStage text = none ∧
         e = .internalServer formatErrMsg) ∨
       (∃ text data, file.mimetype ∈ allowedTypes ∧ env.writeOk = true ∧
         env.aiReply = some text ∧ parseStage text = some data ∧
         validateExtractedData data = some false ∧
         e = .internalServer contentErrMsg) ∨
       (∃ text data, file.mimetype ∈ allowedTypes ∧ env.writeOk = true ∧
         env.aiReply = some text ∧ parseStage text = some data ∧
         validateExtractedData data = none ∧
         e = .internalServer genericErrMsg)) := by
  constructor
  · intro h
    by_cases hm : file.mimetype ∈ allowedTypes
    · by_cases h2 : env.writeOk = true
      · rcases hai : env.aiReply with _ | text
        · have he : HttpError.internalServer genericErrMsg = e := by
            simpa [extractReceiptDetails, hm, h2, hai] using h
          exact Or.inr (Or.inr (Or.inl ⟨hm, h2, rfl, he.symm⟩))
        · rcases hp : parseStage text with _ | data
          · have he : HttpError.internalServer formatErrMsg = e := by
              simpa [extractReceiptDetails, hm, h2, hai, hp] using h
            exact Or.inr (Or.inr (Or.inr (Or.inl
              ⟨text, hm, h2, rfl, hp, he.symm⟩)))
          · rcases hv : validateExtractedData data with _ | b
            · have he : HttpError.internalServer genericErrMsg = e := by
                simpa [extractReceiptDetails, hm, h2, hai, hp, hv] using h
              exact Or.inr (Or.inr (Or.inr (Or.inr (Or.inr
                ⟨text, data, hm, h2, rfl, hp, hv, he.symm⟩))))
            · cases b with
              | false =>
                have he : HttpError.internalServer contentErrMsg = e := by
                  simpa [extractReceiptDetails, hm, h2, hai, hp, hv] using h
                exact Or.inr (Or.inr (Or.inr (Or.inr (Or.inl
                  ⟨text, data, hm, h2, rfl, hp, hv, he.symm⟩))))
              | true =>
                exfalso
                simp [extractReceiptDetails, hm, h2, hai, hp, hv] at h
      · have he : HttpError.internalServer genericErrMsg = e := by
          simpa [extractReceiptDetails, hm, eq_false_of_ne_true h2] using h
        exact Or.inr (Or.inl ⟨hm, eq_false_of_ne_true h2, he.symm⟩)
    · have he : HttpError.badRequest unsupportedTypeMsg = e := by
        simpa [extractReceiptDetails, hm] using h
      exact Or.inl ⟨hm, he.symm⟩
  · rintro (⟨hm, he⟩ | ⟨hm, h2, he⟩ | ⟨hm, h2, hai, he⟩ |
      ⟨text, hm, h2, hai, hp, he⟩ | ⟨text, data, hm, h2, hai, hp, hv, he⟩ |
      ⟨text, data, hm, h2, hai, hp, hv, he⟩) <;>
    subst he <;> simp [extractReceiptDetails, *]

/-- Witness for C3: the unsupported-media-type case, concretely. -/
theorem claim3_witness :
    (extractReceiptDetails smallEnv pdfFile []).result =
      .error (.badRequest unsupportedTypeMsg) :=
  (claim3_error_taxonomy smallEnv pdfFile []
    (.badRequest unsupportedTypeMsg)).mpr (Or.inl ⟨by decide, rfl⟩)
